import Mathlib

/-!
Shallow embedding of the go-statsd-client package (statsd/main.go) and
verification of its specification claims.

Modelling conventions:
* Go `float32` sample rates and the uniform random draw of `rand.Float32()`
  are modelled as exact rationals (`ℚ`); the code only compares rates and
  formats them in fixed-point decimal, and both operations agree with the
  rational semantics on representable values.
* The nil-receiver pattern of `*Client` is modelled by `Option ClientState`.
* The `Sender` interface is modelled by a function `String → Int × Option String`
  giving, for each datagram, the pair returned by `Send` (byte count, error);
  errors are modelled as `Option String` (`none` = Go `nil` error).
* Each embedded operation returns the list of datagrams handed to the sender
  (so "exactly one transmission" is a statement about that list) together
  with the operation's returned error.
-/

namespace Statsd

/-- Decimal rendering of an integer, as Go `fmt.Sprintf("%d", v)` produces
for an `int64` (a minus sign for negatives, plain digits otherwise). -/
def formatInt (i : Int) : String := toString i

/-- Decimal rendering with an always-explicit sign, as Go
`fmt.Sprintf("%+d", v)` produces (a `+` sign for zero and positives). -/
def formatIntSigned (i : Int) : String :=
  if 0 ≤ i then "+" ++ toString i else toString i

/-- Fixed-point decimal rendering of a rational with `prec` digits after the
point, as Go `fmt.Sprintf` verbs `%f` (`prec = 6`) and `%.02f` (`prec = 2`)
produce for a float holding that exact value: round the scaled value to the
nearest integer (ties to even, as Go's strconv decimal rounding does), then
print with the decimal point inserted, zero padded. -/
def fmtFixed (q : ℚ) (prec : Nat) : String :=
  let scaled : Nat := q.num.natAbs * 10 ^ prec
  let whole : Nat := scaled / q.den
  let rem : Nat := scaled % q.den
  let n : Nat :=
    if 2 * rem < q.den then whole
    else if q.den < 2 * rem then whole + 1
    else if whole % 2 = 0 then whole else whole + 1
  let ds : List Char := Nat.toDigits 10 n
  let ds : List Char := List.replicate (prec + 1 - ds.length) '0' ++ ds
  (if q.num < 0 then "-" else "")
    ++ String.mk (ds.take (ds.length - prec))
    ++ (if prec = 0 then "" else "." ++ String.mk (ds.drop (ds.length - prec)))

/-- State of a non-nil `Client`: the statsd name pfx (Go field `prefix`,
renamed because that word is a Lean keyword).  The Go `sender` field is
passed to each operation as an explicit function argument instead. -/
structure ClientState where
  pfx : String

/-- A `Sender`: for each datagram string, the `(n, err)` pair its `Send`
returns. -/
def SenderFun := String → Int × Option String

/-- The sampling step at the top of `Raw`: if `rate < 1`, compare the
uniform draw `r` (the value of `rand.Float32()`) against `rate`; when
selected, append `"|@"` and the `%f`-formatted rate to the value; when not
selected, drop the event (`none`).  If `rate ≥ 1` the value passes through
unchanged. -/
def sampleValue (value : String) (rate r : ℚ) : Option String :=
  if rate < 1 then
    if r < rate then some (value ++ "|@" ++ fmtFixed rate 6)
    else none
  else some value

/-- The name-prefixing and line-construction steps of `Raw`: prepend
`pfx ++ "."` when the pfx is non-empty, then join name and value with
`":"`. -/
def lineData (pfx stat v : String) : String :=
  (if pfx ≠ "" then pfx ++ "." ++ stat else stat) ++ ":" ++ v

/-- Embedding of `(s *Client) Raw(stat, value string, rate float32)`.
`c = none` is the nil receiver; `r` is the value drawn by `rand.Float32()`
(a uniform value in `[0,1)`).  Returns the list of datagrams passed to
`sender.Send` together with the returned error.  Mirrors the source:
nil check; sampling (`sampleValue`); prefixing and joining (`lineData`);
send; return the send error if non-nil, else nil. -/
def Raw (c : Option ClientState) (stat value : String) (rate r : ℚ)
    (send : SenderFun) : List String × Option String :=
  match c with
  | none => ([], none)
  | some cs =>
    match sampleValue value rate r with
    | none => ([], none)
    | some v =>
      let data := lineData cs.pfx stat v
      match (send data).snd with
      | some e => ([data], some e)
      | none => ([data], none)

/-- Raw value string built by `Inc`: `fmt.Sprintf("%d|c", value)`. -/
def incValue (value : Int) : String := formatInt value ++ "|c"

/-- Raw value string built by `Gauge`: `fmt.Sprintf("%d|g", value)`. -/
def gaugeValue (value : Int) : String := formatInt value ++ "|g"

/-- Raw value string built by `GaugeDelta`: `fmt.Sprintf("%+d|g", value)`. -/
def gaugeDeltaValue (value : Int) : String := formatIntSigned value ++ "|g"

/-- Raw value string built by `Timing`: `fmt.Sprintf("%d|ms", delta)`. -/
def timingValue (delta : Int) : String := formatInt delta ++ "|ms"

/-- Raw value string built by `TimingDuration` for a duration of `delta`
nanoseconds (Go `time.Duration` is an `int64` count of nanoseconds):
`ms := float64(delta) / float64(time.Millisecond)` followed by
`fmt.Sprintf("%.02f|ms", ms)`, i.e. the exact rational `delta / 10^6`
formatted with two decimal places. -/
def timingDurationValue (delta : Int) : String :=
  fmtFixed (mkRat delta 1000000) 2 ++ "|ms"

/-- Embedding of `(s *Client) Inc`. -/
def Inc (c : Option ClientState) (stat : String) (value : Int) (rate r : ℚ)
    (send : SenderFun) : List String × Option String :=
  Raw c stat (incValue value) rate r send

/-- Embedding of `(s *Client) Dec`: delegates to `Inc` with the value
negated. -/
def Dec (c : Option ClientState) (stat : String) (value : Int) (rate r : ℚ)
    (send : SenderFun) : List String × Option String :=
  Inc c stat (-value) rate r send

/-- Embedding of `(s *Client) Gauge`. -/
def Gauge (c : Option ClientState) (stat : String) (value : Int) (rate r : ℚ)
    (send : SenderFun) : List String × Option String :=
  Raw c stat (gaugeValue value) rate r send

/-- Embedding of `(s *Client) GaugeDelta`. -/
def GaugeDelta (c : Option ClientState) (stat : String) (value : Int)
    (rate r : ℚ) (send : SenderFun) : List String × Option String :=
  Raw c stat (gaugeDeltaValue value) rate r send

/-- Embedding of `(s *Client) Timing`. -/
def Timing (c : Option ClientState) (stat : String) (delta : Int) (rate r : ℚ)
    (send : SenderFun) : List String × Option String :=
  Raw c stat (timingValue delta) rate r send

/-- Embedding of `(s *Client) TimingDuration` (`delta` in nanoseconds). -/
def TimingDuration (c : Option ClientState) (stat : String) (delta : Int)
    (rate r : ℚ) (send : SenderFun) : List String × Option String :=
  Raw c stat (timingDurationValue delta) rate r send

/-- Embedding of `(s *Client) SetPrefix(p string)`: nil receiver is left
unchanged, otherwise the pfx field is replaced. -/
def SetPrefix (c : Option ClientState) (p : String) : Option ClientState :=
  match c with
  | none => none
  | some cs => some { cs with pfx := p }

/-- Embedding of `(s *Client) Close()`: nil receiver returns nil, otherwise
the result of `sender.Close()` (passed in as `senderClose`) is returned. -/
def Close (c : Option ClientState) (senderClose : Option String) :
    Option String :=
  match c with
  | none => none
  | some _ => senderClose

/-- Embedding of `(s *SimpleSender) Send(data)`: `n` and `werr` are the pair
returned by the underlying `WriteToUDP` call.  On a write error return
`(0, err)`; on a zero-byte write return `(n, "Wrote no bytes")`; otherwise
`(n, nil)`. -/
def SimpleSend (n : Int) (werr : Option String) : Int × Option String :=
  match werr with
  | some e => (0, some e)
  | none => if n = 0 then (n, some "Wrote no bytes") else (n, none)

/-- The two externally visible resource-acquisition steps taken by
`NewSimpleSender`. -/
inductive SetupStep where
  | listenPacket
  | resolveUDPAddr
deriving DecidableEq

/-- Embedding of `NewSimpleSender(addr)` as the trace of its setup steps.
`listenErr` is the error of `net.ListenPacket("udp", ":0")` and `resolveErr`
that of `net.ResolveUDPAddr("udp", addr)` (`some _` when the address is
unparsable).  Mirrors the source order: the socket is opened first; only
then is the address resolved, and a resolution failure returns that error
(without closing the already-opened socket). -/
def NewSimpleSender (listenErr resolveErr : Option String) :
    List SetupStep × Option String :=
  match listenErr with
  | some e => ([SetupStep.listenPacket], some e)
  | none =>
    match resolveErr with
    | some e => ([SetupStep.listenPacket, SetupStep.resolveUDPAddr], some e)
    | none => ([SetupStep.listenPacket, SetupStep.resolveUDPAddr], none)

/-- A sender whose `Send` always succeeds, reporting one byte written. -/
def okSend : SenderFun := fun _ => (1, none)

/-- A sender whose `Send` always fails with error `"boom"`. -/
def badSend : SenderFun := fun _ => (0, some "boom")

/-- The first component of the final send step of `Raw` does not depend on
the outcome of the `Send` call: the datagram is handed over exactly once. -/
lemma send_match_fst (data : String) (o : Option String) :
    (match o with
      | some e => ([data], some e)
      | none => ([data], none) : List String × Option String).fst = [data] := by
  cases o <;> rfl

/-- The second component of the final send step of `Raw` is exactly the
error returned by `Send`. -/
lemma send_match_snd (data : String) (o : Option String) :
    (match o with
      | some e => ([data], some e)
      | none => ([data], none) : List String × Option String).snd = o := by
  cases o <;> rfl

/-- Datagrams transmitted by `Raw` on a non-nil client, as a function of the
sampling outcome. -/
lemma raw_fst_eq (cs : ClientState) (stat value : String) (rate r : ℚ)
    (send : SenderFun) :
    (Raw (some cs) stat value rate r send).fst
      = match sampleValue value rate r with
        | none => []
        | some v => [lineData cs.pfx stat v] := by
  unfold Raw
  cases sampleValue value rate r with
  | none => rfl
  | some v => exact send_match_fst _ _

/-- Error returned by `Raw` on a non-nil client, as a function of the
sampling outcome: `nil` on a drop, else the error of the `Send` call. -/
lemma raw_snd_eq (cs : ClientState) (stat value : String) (rate r : ℚ)
    (send : SenderFun) :
    (Raw (some cs) stat value rate r send).snd
      = match sampleValue value rate r with
        | none => none
        | some v => (send (lineData cs.pfx stat v)).snd := by
  unfold Raw
  cases sampleValue value rate r with
  | none => rfl
  | some v => exact send_match_snd _ _

/-- Sampling at a rate ≥ 1 passes the value through unchanged. -/
lemma sampleValue_of_one_le (value : String) {rate : ℚ} (r : ℚ)
    (h : 1 ≤ rate) : sampleValue value rate r = some value := by
  unfold sampleValue
  exact if_neg (not_lt.mpr h)

/-- Sampling at a rate < 1 with a selecting draw appends the formatted
rate. -/
lemma sampleValue_of_selected (value : String) {rate r : ℚ}
    (h1 : rate < 1) (h2 : r < rate) :
    sampleValue value rate r = some (value ++ "|@" ++ fmtFixed rate 6) := by
  unfold sampleValue
  rw [if_pos h1, if_pos h2]

/-- Sampling at a rate < 1 with a non-selecting draw drops the event. -/
lemma sampleValue_of_dropped (value : String) {rate r : ℚ}
    (h1 : rate < 1) (h2 : ¬ r < rate) :
    sampleValue value rate r = none := by
  unfold sampleValue
  rw [if_pos h1, if_neg h2]

/-- Claim C1: for every non-nil Client, name, value string, and rate ≥ 1.0,
`Raw` performs exactly one transmission (never drops the event), and the
transmitted line is the name (with the pfx applied if non-empty) joined to
the value string by `":"` with no `"|@<rate>"` suffix appended. -/
theorem raw_rate_ge_one_sends_once (cs : ClientState) (stat value : String)
    (rate r : ℚ) (send : SenderFun) (h : 1 ≤ rate) :
    (Raw (some cs) stat value rate r send).fst
      = [(if cs.pfx ≠ "" then cs.pfx ++ "." ++ stat else stat) ++ ":" ++ value] := by
  rw [raw_fst_eq, sampleValue_of_one_le value r h]
  rfl

/-- Witness for C1 at pfx `"app"`, stat `"hits"`, value `"5|c"`, rate 1. -/
theorem raw_rate_ge_one_sends_once_witness :
    (1 : ℚ) ≤ 1 ∧
      (Raw (some ⟨"app"⟩) "hits" "5|c" 1 0 okSend).fst
        = [(if ("app" : String) ≠ "" then "app" ++ "." ++ "hits" else "hits") ++ ":" ++ "5|c"] :=
  ⟨by decide, raw_rate_ge_one_sends_once ⟨"app"⟩ "hits" "5|c" 1 0 okSend (by decide)⟩

/-- Claim C2: at rate 1.0 on a non-nil Client the typed operations build
exactly the spec table's raw value strings: `Inc` with 5 transmits value
segment `"5|c"`, `Dec` with 5 transmits `"-5|c"` (and `Dec` equals `Inc` of
the negated value for every value), `Gauge` with -3 transmits `"-3|g"`,
`GaugeDelta` with 3 transmits `"+3|g"` (explicit plus sign), and `Timing`
with 250 transmits `"250|ms"`. -/
theorem typed_operations_wire_values :
    (∀ (c : Option ClientState) (stat : String) (v : Int) (rate r : ℚ)
        (send : SenderFun), Dec c stat v rate r send = Inc c stat (-v) rate r send)
    ∧ (∀ r : ℚ, (Inc (some ⟨""⟩) "x" 5 1 r okSend).fst = ["x:5|c"])
    ∧ (∀ r : ℚ, (Dec (some ⟨""⟩) "x" 5 1 r okSend).fst = ["x:-5|c"])
    ∧ (∀ r : ℚ, (Gauge (some ⟨""⟩) "x" (-3) 1 r okSend).fst = ["x:-3|g"])
    ∧ (∀ r : ℚ, (GaugeDelta (some ⟨""⟩) "x" 3 1 r okSend).fst = ["x:+3|g"])
    ∧ (∀ r : ℚ, (Timing (some ⟨""⟩) "x" 250 1 r okSend).fst = ["x:250|ms"]) :=
  ⟨fun _ _ _ _ _ _ => rfl, fun _ => rfl, fun _ => rfl, fun _ => rfl,
    fun _ => rfl, fun _ => rfl⟩

/-- Claim C3: every transmitted datagram's name segment is the pfx joined
to the name by a literal `"."` when the pfx is non-empty, and the name
unchanged when the pfx is empty; in particular with pfx `"app"` and name
`"hits"` the name segment is `"app.hits"`, and with pfx `""` it is
`"hits"`. -/
theorem transmitted_name_segment :
    (∀ (cs : ClientState) (stat value : String) (rate r : ℚ) (send : SenderFun)
        (d : String), d ∈ (Raw (some cs) stat value rate r send).fst →
        ∃ v, d = (if cs.pfx = "" then stat else cs.pfx ++ "." ++ stat) ++ ":" ++ v)
    ∧ (∀ (value : String) (r : ℚ) (send : SenderFun),
        (Raw (some ⟨"app"⟩) "hits" value 1 r send).fst = ["app.hits:" ++ value])
    ∧ (∀ (value : String) (r : ℚ) (send : SenderFun),
        (Raw (some ⟨""⟩) "hits" value 1 r send).fst = ["hits:" ++ value]) := by
  refine ⟨?_, ?_, ?_⟩
  · intro cs stat value rate r send d hd
    rw [raw_fst_eq] at hd
    cases hs : sampleValue value rate r with
    | none => rw [hs] at hd; simp at hd
    | some v =>
      rw [hs] at hd
      simp only [List.mem_singleton] at hd
      refine ⟨v, ?_⟩
      rw [hd]
      unfold lineData
      by_cases hp : cs.pfx = "" <;> simp [hp]
  · intro value r send
    rw [raw_fst_eq, sampleValue_of_one_le value r le_rfl]
    rfl
  · intro value r send
    rw [raw_fst_eq, sampleValue_of_one_le value r le_rfl]
    rfl

/-- Witness for C3's transmitted-datagram clause at pfx `"app"`, stat
`"hits"`, value `"5|c"`, rate 1, draw 0. -/
theorem transmitted_name_segment_witness :
    ∃ v, "app.hits:5|c"
      = (if ("app" : String) = "" then "hits" else "app" ++ "." ++ "hits") ++ ":" ++ v :=
  transmitted_name_segment.1 ⟨"app"⟩ "hits" "5|c" 1 0 okSend "app.hits:5|c" (by decide)

/-- Claim C4 counterexample: at rate 0.5 with a selecting draw, the
transmitted line for stat `"requests"` under pfx `"myapp"` and value
`"1|c"` is `"myapp.requests:1|c|@0.500000"` (the Go `%f` verb prints six
decimal places), not the spec's `"myapp.requests:1|c|@0.5"`. -/
theorem rate_suffix_cex :
    (Raw (some ⟨"myapp"⟩) "requests" "1|c" (mkRat 1 2) (mkRat 1 4) okSend).fst
        = ["myapp.requests:1|c|@0.500000"]
    ∧ (Raw (some ⟨"myapp"⟩) "requests" "1|c" (mkRat 1 2) (mkRat 1 4) okSend).fst
        ≠ ["myapp.requests:1|c|@0.5"] := by
  decide

/-- Claim C4 (amended): for every rate < 1.0 whose sampling draw selects the
event, the transmitted line ends with `"|@<rate>"` where the rate is
formatted in fixed-point decimal with six digits after the point (Go's `%f`
verb), e.g. `"|@0.500000"` for rate 0.5. -/
theorem rate_suffix_six_decimals (cs : ClientState) (stat value : String)
    (rate r : ℚ) (send : SenderFun) (h1 : rate < 1) (h2 : r < rate) :
    (Raw (some cs) stat value rate r send).fst
      = [(if cs.pfx ≠ "" then cs.pfx ++ "." ++ stat else stat) ++ ":"
          ++ (value ++ "|@" ++ fmtFixed rate 6)] := by
  rw [raw_fst_eq, sampleValue_of_selected value h1 h2]
  rfl

/-- Witness for the amended C4 at rate 1/2 and draw 1/4. -/
theorem rate_suffix_six_decimals_witness :
    mkRat 1 2 < (1 : ℚ) ∧ mkRat 1 4 < mkRat 1 2 ∧
      (Raw (some ⟨"myapp"⟩) "requests" "1|c" (mkRat 1 2) (mkRat 1 4) okSend).fst
        = [(if ("myapp" : String) ≠ "" then "myapp" ++ "." ++ "requests" else "requests")
            ++ ":" ++ ("1|c" ++ "|@" ++ fmtFixed (mkRat 1 2) 6)] :=
  ⟨by decide, by decide,
    rate_suffix_six_decimals ⟨"myapp"⟩ "requests" "1|c" (mkRat 1 2) (mkRat 1 4)
      okSend (by decide) (by decide)⟩

/-- Claim C5 counterexample: constructing a sender with an unparsable
address (resolution fails, socket opening succeeds) does fail with the
resolution error, but the local socket has already been opened at that
point — the open-socket step precedes the resolution step in the trace, so
a socket resource exists when construction fails. -/
theorem socket_opened_before_resolution_cex :
    (NewSimpleSender none (some "bad address")).snd = some "bad address"
    ∧ SetupStep.listenPacket ∈ (NewSimpleSender none (some "bad address")).fst
    ∧ (NewSimpleSender none (some "bad address")).fst
        = [SetupStep.listenPacket, SetupStep.resolveUDPAddr] := by
  decide

/-- Claim C5 (amended): constructing a sender with an unparsable address
fails with the resolution error, but the local socket is opened before the
address is resolved, so an already-opened socket resource exists (and is
not released) when construction fails on a bad address. -/
theorem socket_opened_before_resolution (e : String) :
    (NewSimpleSender none (some e)).snd = some e
    ∧ (NewSimpleSender none (some e)).fst
        = [SetupStep.listenPacket, SetupStep.resolveUDPAddr] :=
  ⟨rfl, rfl⟩

/-- Claim C6: every operation on a nil Client is a silent no-op: `Raw` and
all typed metric operations transmit nothing and return no error,
`SetPrefix` changes nothing, and `Close` returns no error. -/
theorem nil_client_noop :
    ∀ (stat value : String) (v : Int) (rate r : ℚ) (send : SenderFun)
      (p : String) (e : Option String),
      Raw none stat value rate r send = ([], none)
      ∧ Inc none stat v rate r send = ([], none)
      ∧ Dec none stat v rate r send = ([], none)
      ∧ Gauge none stat v rate r send = ([], none)
      ∧ GaugeDelta none stat v rate r send = ([], none)
      ∧ Timing none stat v rate r send = ([], none)
      ∧ TimingDuration none stat v rate r send = ([], none)
      ∧ SetPrefix none p = none
      ∧ Close none e = none :=
  fun _ _ _ _ _ _ _ _ => ⟨rfl, rfl, rfl, rfl, rfl, rfl, rfl, rfl, rfl⟩

/-- Claim C7: at rate 0 on a non-nil Client, `Raw` never transmits: for
every draw in [0,1) the event is dropped, no `Send` call occurs, and no
error is returned. -/
theorem rate_zero_never_sends (cs : ClientState) (stat value : String)
    (r : ℚ) (send : SenderFun) (hr : 0 ≤ r) :
    Raw (some cs) stat value 0 r send = ([], none) := by
  have hs : sampleValue value 0 r = none :=
    sampleValue_of_dropped value zero_lt_one (not_lt.mpr hr)
  unfold Raw
  rw [hs]

/-- Witness for C7 at draw 0. -/
theorem rate_zero_never_sends_witness :
    (0 : ℚ) ≤ 0 ∧ Raw (some ⟨""⟩) "x" "1|c" 0 0 okSend = ([], none) :=
  ⟨by decide, rate_zero_never_sends ⟨""⟩ "x" "1|c" 0 okSend (by decide)⟩

/-- Claim C8: `SimpleSender.Send` returns an error exactly when the
underlying UDP write fails or reports zero bytes written, and otherwise
returns the byte count with no error; and `Raw` propagates a `Send` error
to its caller unchanged — at every rate and draw: whenever a datagram is
transmitted (whether unsampled or sampled, with the `"|@"` suffix) and the
`Send` call on it fails, `Raw` returns that exact error. -/
theorem send_error_exactly_and_propagated :
    (∀ (n : Int) (werr : Option String),
        ((SimpleSend n werr).snd ≠ none ↔ werr ≠ none ∨ n = 0)
        ∧ (werr = none → n ≠ 0 → SimpleSend n werr = (n, none)))
    ∧ (∀ (cs : ClientState) (stat value : String) (rate r : ℚ)
        (send : SenderFun) (e d : String),
        d ∈ (Raw (some cs) stat value rate r send).fst →
        (send d).snd = some e →
        (Raw (some cs) stat value rate r send).snd = some e) := by
  constructor
  · intro n werr
    constructor
    · cases werr with
      | some e => simp [SimpleSend]
      | none => by_cases hn : n = 0 <;> simp [SimpleSend, hn]
    · intro hw hn
      subst hw
      simp [SimpleSend, hn]
  · intro cs stat value rate r send e d hd he
    rw [raw_fst_eq] at hd
    rw [raw_snd_eq]
    cases hs : sampleValue value rate r with
    | none => rw [hs] at hd; simp at hd
    | some v =>
      rw [hs] at hd
      simp only [List.mem_singleton] at hd
      subst hd
      exact he

/-- Witness for C8's propagation clause on a sampled transmission: at rate
1/2 with selecting draw 1/4 the datagram carries the `"|@0.500000"` suffix,
and the sender's `"boom"` error is returned unchanged. -/
theorem send_error_exactly_and_propagated_witness :
    "x:1|c|@0.500000"
        ∈ (Raw (some ⟨""⟩) "x" "1|c" (mkRat 1 2) (mkRat 1 4) badSend).fst
    ∧ (badSend "x:1|c|@0.500000").snd = some "boom"
    ∧ (Raw (some ⟨""⟩) "x" "1|c" (mkRat 1 2) (mkRat 1 4) badSend).snd
        = some "boom" :=
  ⟨by decide, rfl,
    send_error_exactly_and_propagated.2 ⟨""⟩ "x" "1|c" (mkRat 1 2) (mkRat 1 4)
      badSend "boom" "x:1|c|@0.500000" (by decide) rfl⟩

/-- Claim C9: `TimingDuration` converts its duration argument (nanoseconds)
to milliseconds and formats it with exactly two decimal places in fixed
format: 12.5 ms (12500000 ns) gives `"12.50|ms"` and exactly 10 ms
(10000000 ns) gives `"10.00|ms"`, keeping trailing zeros. -/
theorem timing_duration_two_decimal_places :
    (∀ delta : Int, timingDurationValue delta
        = fmtFixed ((delta : ℚ) / 1000000) 2 ++ "|ms")
    ∧ timingDurationValue 12500000 = "12.50|ms"
    ∧ timingDurationValue 10000000 = "10.00|ms" := by
  refine ⟨?_, by decide, by decide⟩
  intro delta
  unfold timingDurationValue
  rw [Rat.mkRat_eq_div]
  norm_num

/-- Claim C10: for every rate < 0 on a non-nil Client, `Raw` behaves exactly
like rate 0: for every draw in [0,1) it returns no error and never
transmits (a negative rate is silently accepted, never selected). -/
theorem negative_rate_never_sends (cs : ClientState) (stat value : String)
    (rate r : ℚ) (send : SenderFun) (hrate : rate < 0) (hr : 0 ≤ r) :
    Raw (some cs) stat value rate r send = Raw (some cs) stat value 0 r send
    ∧ Raw (some cs) stat value rate r send = ([], none) := by
  have hs : sampleValue value rate r = none :=
    sampleValue_of_dropped value (hrate.trans zero_lt_one)
      (not_lt.mpr (hrate.le.trans hr))
  have hs0 : sampleValue value 0 r = none :=
    sampleValue_of_dropped value zero_lt_one (not_lt.mpr hr)
  constructor
  · unfold Raw
    rw [hs, hs0]
  · unfold Raw
    rw [hs]

/-- Witness for C10 at rate -1/2 and draw 0. -/
theorem negative_rate_never_sends_witness :
    mkRat (-1) 2 < (0 : ℚ) ∧ (0 : ℚ) ≤ 0 ∧
      (Raw (some ⟨""⟩) "x" "1|c" (mkRat (-1) 2) 0 okSend
          = Raw (some ⟨""⟩) "x" "1|c" 0 0 okSend
        ∧ Raw (some ⟨""⟩) "x" "1|c" (mkRat (-1) 2) 0 okSend = ([], none)) :=
  ⟨by decide, by decide,
    negative_rate_never_sends ⟨""⟩ "x" "1|c" (mkRat (-1) 2) 0 okSend
      (by decide) (by decide)⟩

end Statsd
